import Mathlib

/-!
Shallow embedding of the createveai-nexus-server runtime
(src/api_server: compatibility checker, API loader, executor,
OpenAPI generator, security middleware, queue manager), with theorems
checking the natural-language specification against the code.

Python values are modelled by the inductive `PyVal`; Python dicts are
insertion-ordered association lists; exceptions are modelled by
`Except`; machine-level concerns (actual base64/PIL decoding, the file
system, timestamps, uuid generation) are passed in as parameters or
modelled by wrapper constructors, as documented at each definition.
-/

set_option autoImplicit false

/-- A Python value, as far as the runtime under study inspects values:
scalars, lists, tuples and string-keyed dicts. The `decoded` constructor
stands for the native object produced by decoding a base64 binary payload
(a numpy array for IMAGE, a temp-file path for VIDEO/FILE); the actual
byte-level decoding is I/O and is modelled by wrapping the payload. -/
inductive PyVal where
  | none
  | bool (b : Bool)
  | int (n : Int)
  | str (s : String)
  | list (xs : List PyVal)
  | tuple (xs : List PyVal)
  | dict (kvs : List (String × PyVal))
  | decoded (typeName : String) (payload : String)

/-- Python dict assignment `d[k] = v` on an insertion-ordered assoc list:
replace in place when the key exists, append otherwise. -/
def dictInsert {α : Type} : List (String × α) → String → α → List (String × α)
  | [], k, v => [(k, v)]
  | (k1, v1) :: rest, k, v =>
    if k1 = k then (k1, v) :: rest else (k1, v1) :: dictInsert rest k v

/-- Python `d.get(k)` / `d[k]` lookup on an assoc list (first match). -/
def dictGet {α : Type} : List (String × α) → String → Option α
  | [], _ => Option.none
  | (k1, v1) :: rest, k => if k1 = k then some v1 else dictGet rest k

/-- Python `set.add` on a list model of a set (no duplicate insertion). -/
def setAdd (s : List String) (x : String) : List String :=
  if x ∈ s then s else s ++ [x]

/-- Error codes from `models/errors.py` (`APIErrorCode`), values are the
HTTP status codes. -/
inductive APIErrorCode where
  | INVALID_INPUT
  | UNAUTHORIZED
  | NOT_FOUND
  | VALIDATION_ERROR
  | API_ERROR
  | TIMEOUT_ERROR
  deriving Repr, DecidableEq

/-- `APIErrorCode.value`: the HTTP status code of each error code. -/
def APIErrorCode.value : APIErrorCode → Nat
  | .INVALID_INPUT => 400
  | .UNAUTHORIZED => 401
  | .NOT_FOUND => 404
  | .VALIDATION_ERROR => 422
  | .API_ERROR => 500
  | .TIMEOUT_ERROR => 504

/-- `APIError` from `models/errors.py`: code and message (the optional
`details`/`uri` fields are always defaulted by the code under study and
are omitted). -/
structure APIError where
  code : APIErrorCode
  message : String
  deriving Repr, DecidableEq

/-- `str(e)` of an `APIError`: `APIError.__init__` never calls
`super().__init__(message)`, so the underlying `Exception.args` is empty
and `str(e)` is the empty string. -/
def APIError.toStr (_ : APIError) : String := ""

/-- `CompatibilityChecker.SUPPORTED_TYPES` from `api/compatibility.py`. -/
def SUPPORTED_TYPES : List String :=
  ["STRING", "NUMBER", "FLOAT", "INTEGER",
   "IMAGE", "VIDEO", "FILE", "BOOLEAN",
   "DICT", "LIST"]

/-- The binary type tags `["IMAGE", "VIDEO", "FILE"]`, written out at
several places in the source. -/
def imageVideoFile : List String := ["IMAGE", "VIDEO", "FILE"]

/-- The `INPUT_TYPES` dict of a handler class: the `required` and
`optional` sections, each an insertion-ordered map from field name to
the field's type declaration (an arbitrary Python value; a well-formed
declaration is a tuple whose head is the type tag). -/
structure InputTypes where
  required : List (String × PyVal)
  optional : List (String × PyVal)

/-- The `RETURN_TYPES` attribute of a handler class: absent, present but
not a tuple, or a tuple of string type tags. -/
inductive RetTypes where
  | absent
  | nonTuple
  | tags (ts : List String)

/-- A handler class, as far as the loader/executor inspect it:
`input_types` is the `INPUT_TYPES` attribute (already called if it was a
classmethod), `return_types` is `RETURN_TYPES`, `return_names` is
`RETURN_NAMES` (a tuple of strings when present), `function` is the
`FUNCTION` attribute, `methods` is the set of names of callable
attributes, and `entry` is the semantics of the entry method named by
`FUNCTION`: given the keyword arguments it either returns a value or
raises an exception, modelled by `Except` carrying `str(e)`. -/
structure NodeClass where
  input_types : Option InputTypes
  return_types : RetTypes
  return_names : Option (List String)
  function : Option String
  methods : List String
  entry : List (String × PyVal) → Except String PyVal

/-- Compatibility verdict from `api/compatibility.py`
(`APICompatibility` plus the result dict): fully compatible carries the
convertible input/output field sets, incompatible carries the reason.
`PARTIALLY_COMPATIBLE` is declared in the source but never produced. -/
inductive Verdict where
  | fullyCompatible (convertibleInputs convertibleOutputs : List String)
  | incompatible (reason : String)

/-- One section loop of `CompatibilityChecker._check_input_types`:
walk the fields in order; a field whose declaration is a non-empty tuple
with a string head that is outside `SUPPORTED_TYPES` (and not
IMAGE/VIDEO/FILE) fails with a reason; IMAGE/VIDEO/FILE heads are added
to the convertible set; all other shapes are skipped. -/
def checkFields : List (String × PyVal) → List String → Except String (List String)
  | [], conv => .ok conv
  | (field, typeInfo) :: rest, conv =>
    match typeInfo with
    | .tuple (.str typeName :: _) =>
      if typeName ∉ SUPPORTED_TYPES ∧ typeName ∉ imageVideoFile then
        .error ("Unsupported type " ++ typeName ++ " for " ++ field)
      else if typeName ∈ imageVideoFile then
        checkFields rest (setAdd conv field)
      else
        checkFields rest conv
    | _ => checkFields rest conv

/-- `CompatibilityChecker._check_input_types`: the `required` section is
walked first, then `optional`; the first failure wins. -/
def checkInputTypes (it : InputTypes) : Except String (List String) :=
  match checkFields it.required [] with
  | .error r => .error r
  | .ok conv => checkFields it.optional conv

/-- The name under which output slot `i` is reported: `RETURN_NAMES[i]`
when `RETURN_NAMES` is a non-empty tuple with at least `i+1` entries,
the generated `output_i` otherwise (Python truthiness: `None` and the
empty tuple both fail the `if return_names and i < len(return_names)`
test; an empty tuple also fails `i < 0`). -/
def returnNameAt (returnNames : Option (List String)) (i : Nat) : String :=
  match returnNames with
  | some ns => if i < ns.length then ns.getD i "" else "output_" ++ toString i
  | Option.none => "output_" ++ toString i

/-- The element loop of `CompatibilityChecker._check_output_types`:
each tag must be in `SUPPORTED_TYPES`; IMAGE/VIDEO/FILE tags add the
slot's reported name to the convertible set. -/
def checkOutputTags (cls : NodeClass) : Nat → List String → List String → Except String (List String)
  | _, [], conv => .ok conv
  | i, typeName :: rest, conv =>
    if typeName ∉ SUPPORTED_TYPES ∧ typeName ∉ imageVideoFile then
      .error ("Unsupported return type " ++ typeName ++ " at position " ++ toString i)
    else if typeName ∈ imageVideoFile then
      checkOutputTags cls (i + 1) rest (setAdd conv (returnNameAt cls.return_names i))
    else
      checkOutputTags cls (i + 1) rest conv

/-- `CompatibilityChecker._check_output_types`: a missing attribute
raises and is reported as a validation error; a non-tuple value is
rejected; a tuple of tags is checked element-wise. -/
def checkOutputTypes (cls : NodeClass) : Except String (List String) :=
  match cls.return_types with
  | .absent => .error "Output types validation error: missing RETURN_TYPES"
  | .nonTuple => .error "RETURN_TYPES must be a tuple"
  | .tags ts => checkOutputTags cls 0 ts []

/-- `CompatibilityChecker.check_node_compatibility`: attribute presence
checks, then input types, then output types, then the entry method
lookup, in the source's order. -/
def check_node_compatibility (cls : NodeClass) : Verdict :=
  match cls.input_types, cls.return_types with
  | Option.none, _ =>
    .incompatible "Missing required attributes (INPUT_TYPES or RETURN_TYPES)"
  | some _, .absent =>
    .incompatible "Missing required attributes (INPUT_TYPES or RETURN_TYPES)"
  | some it, _ =>
    match cls.function with
    | Option.none => .incompatible "Missing FUNCTION attribute"
    | some fn =>
      match checkInputTypes it with
      | .error r => .incompatible ("Incompatible inputs: " ++ r)
      | .ok convIn =>
        match checkOutputTypes cls with
        | .error r => .incompatible ("Incompatible outputs: " ++ r)
        | .ok convOut =>
          if fn ∈ cls.methods then .fullyCompatible convIn convOut
          else .incompatible ("Function " ++ fn ++ " not found or not callable")

/-- A discovered candidate handler as assembled by `APILoader.load_apis`
from a module's `NODE_CLASS_MAPPINGS` / `API_SERVER_QUEUE_MODE`. -/
structure Candidate where
  api_path : String
  cls : NodeClass
  queue_mode : Bool

/-- The endpoint-table loop of `APILoader.load_apis`: only candidates
whose compatibility verdict is `FULLY_COMPATIBLE` are entered into the
live endpoint table (path → class); incompatible candidates are logged
and skipped. -/
def load_apis_from (cands : List Candidate)
    (apis : List (String × NodeClass)) : List (String × NodeClass) :=
  match cands with
  | [] => apis
  | c :: rest =>
    match check_node_compatibility c.cls with
    | .fullyCompatible _ _ => load_apis_from rest (dictInsert apis c.api_path c.cls)
    | .incompatible _ => load_apis_from rest apis

/-- `APILoader.load_apis` starting from an empty registry. -/
def load_apis (cands : List Candidate) : List (String × NodeClass) :=
  load_apis_from cands []

/-- `TypeConverter.convert_from_base64`: called by the executor only for
IMAGE/VIDEO/FILE tags; decoding produces a native decoded object (numpy
array for IMAGE) or a freshly written temp-file path (VIDEO/FILE) — both
I/O, modelled by wrapping the payload; any other tag raises. The
decode-failure branch for malformed base64 is I/O-level and not
modelled. -/
def convert_from_base64 (value : String) (typeName : String) :
    Except APIError PyVal :=
  if typeName ∈ imageVideoFile then .ok (.decoded typeName value)
  else .error ⟨.API_ERROR, "Unsupported type for base64 conversion: " ++ typeName⟩

/-- `TypeConverter.convert_to_base64`: IMAGE expects a numpy array
(a decoded wrapper in this model), VIDEO/FILE expect an existing file
path (a string); re-encoding the bytes is I/O and is modelled as
carrying the payload through; a wrong-shaped value or tag raises. -/
def convert_to_base64 (value : PyVal) (typeName : String) :
    Except APIError PyVal :=
  if typeName = "IMAGE" then
    match value with
    | .decoded _ payload => .ok (.str payload)
    | _ => .error ⟨.API_ERROR, "Expected numpy array for IMAGE conversion"⟩
  else if typeName = "VIDEO" ∨ typeName = "FILE" then
    match value with
    | .str path => .ok (.str path)
    | .decoded _ payload => .ok (.str payload)
    | _ => .error ⟨.API_ERROR, "Expected file path for " ++ typeName ++ " conversion"⟩
  else .error ⟨.API_ERROR, "Unsupported type for base64 conversion: " ++ typeName⟩

/-- `APIExecutor._get_input_types`: a missing/raising `INPUT_TYPES`
yields the empty dict. -/
def get_input_types (cls : NodeClass) : InputTypes :=
  cls.input_types.getD ⟨[], []⟩

/-- The per-field marshalling step of `APIExecutor._prepare_arguments`:
when the declaration is a non-empty tuple whose head tag is
IMAGE/VIDEO/FILE and the supplied value is a string, it is decoded from
base64; every other combination passes the value through unchanged. -/
def marshalField (typeInfo : PyVal) (value : PyVal) : Except APIError PyVal :=
  match typeInfo with
  | .tuple (.str typeName :: _) =>
    if typeName ∈ imageVideoFile then
      match value with
      | .str s => convert_from_base64 s typeName
      | v => .ok v
    else .ok value
  | _ => .ok value

/-- The `required` loop of `APIExecutor._prepare_arguments`: a field
absent from the request data raises INVALID_INPUT; present fields are
marshalled and added to the kwargs. -/
def prepRequired : List (String × PyVal) → List (String × PyVal) →
    List (String × PyVal) → Except APIError (List (String × PyVal))
  | [], _, kwargs => .ok kwargs
  | (field, typeInfo) :: rest, data, kwargs =>
    match dictGet data field with
    | Option.none => .error ⟨.INVALID_INPUT, "Missing required field: " ++ field⟩
    | some v =>
      match marshalField typeInfo v with
      | .error e => .error e
      | .ok v2 => prepRequired rest data (dictInsert kwargs field v2)

/-- The `optional` loop of `APIExecutor._prepare_arguments`: absent
fields are skipped, present ones marshalled and added. -/
def prepOptional : List (String × PyVal) → List (String × PyVal) →
    List (String × PyVal) → Except APIError (List (String × PyVal))
  | [], _, kwargs => .ok kwargs
  | (field, typeInfo) :: rest, data, kwargs =>
    match dictGet data field with
    | Option.none => prepOptional rest data kwargs
    | some v =>
      match marshalField typeInfo v with
      | .error e => .error e
      | .ok v2 => prepOptional rest data (dictInsert kwargs field v2)

/-- `APIExecutor._prepare_arguments` (the positional-args list stays
empty in the source; only kwargs are produced). -/
def prepare_arguments (data : List (String × PyVal)) (it : InputTypes) :
    Except APIError (List (String × PyVal)) :=
  match prepRequired it.required data [] with
  | .error e => .error e
  | .ok kwargs => prepOptional it.optional data kwargs

/-- The tuple-normalization loop of `APIExecutor.execute_api`
(lines 47-60): `result_dict[name] = value` for each position, the name
coming from `returnNameAt`. -/
def buildNamed (returnNames : Option (List String)) (xs : List PyVal) :
    List (String × PyVal) :=
  xs.enum.foldl (fun d iv => dictInsert d (returnNameAt returnNames iv.1) iv.2) []

/-- Result normalization in `APIExecutor.execute_api`: a tuple result is
converted to a dict via `RETURN_NAMES`; any other result is left as is. -/
def normalize_result (returnNames : Option (List String)) (result : PyVal) : PyVal :=
  match result with
  | .tuple xs => .dict (buildNamed returnNames xs)
  | r => r

/-- The declared type tag a dict key resolves to in
`APIExecutor._process_result`: only when both `RETURN_NAMES` and
`RETURN_TYPES` are truthy (non-`None`, non-empty tuples) is the key
looked up in `RETURN_NAMES` (`.index`, first occurrence; a missing key
or out-of-range index yields no tag). A present-but-non-tuple
`RETURN_TYPES` never reaches execution (the loader rejects it). -/
def resultTypeTag (cls : NodeClass) (key : String) : Option String :=
  match cls.return_names, cls.return_types with
  | some (n :: ns), .tags (t :: ts) =>
    match (n :: ns).findIdx? (fun x => x == key) with
    | some idx =>
      if idx < (t :: ts).length then some ((t :: ts).getD idx "") else Option.none
    | Option.none => Option.none
  | _, _ => Option.none

/-- The per-key loop of `APIExecutor._process_result`: values whose
declared tag is IMAGE/VIDEO/FILE are encoded to base64, others pass
through. -/
def processDict (cls : NodeClass) : List (String × PyVal) →
    List (String × PyVal) → Except APIError (List (String × PyVal))
  | [], acc => .ok acc
  | (key, value) :: rest, acc =>
    match resultTypeTag cls key with
    | some tag =>
      if tag ∈ imageVideoFile then
        match convert_to_base64 value tag with
        | .error e => .error e
        | .ok v2 => processDict cls rest (dictInsert acc key v2)
      else processDict cls rest (dictInsert acc key value)
    | Option.none => processDict cls rest (dictInsert acc key value)

/-- `APIExecutor._process_result`: a dict result is rebuilt key by key
with binary-typed values encoded to base64; a non-dict result is
returned as is. -/
def process_result (cls : NodeClass) (result : PyVal) : Except APIError PyVal :=
  match result with
  | .dict kvs =>
    match processDict cls kvs [] with
    | .error e => .error e
    | .ok acc => .ok (.dict acc)
  | r => .ok r

/-- `APIExecutor.execute_api`: endpoint lookup (NOT_FOUND when absent),
argument preparation (its `APIError`s propagate unchanged through the
`except APIError: raise` arm), handler invocation (any exception is
wrapped as an API_ERROR carrying `str(e)`), tuple normalization and
result processing (an exception there is caught by the same inner
handler; for the converter's `APIError` its `str(e)` is the empty
string, see `APIError.toStr`). -/
def execute_api (apis : List (String × NodeClass)) (api_path : String)
    (data : List (String × PyVal)) : Except APIError PyVal :=
  match dictGet apis api_path with
  | Option.none => .error ⟨.NOT_FOUND, "API endpoint " ++ api_path ++ " not found"⟩
  | some cls =>
    match cls.function with
    | Option.none =>
      -- `getattr(cls, 'FUNCTION')` raises; the outer handler wraps it
      .error ⟨.API_ERROR, "Error processing API: missing FUNCTION attribute"⟩
    | some _ =>
      match prepare_arguments data (get_input_types cls) with
      | .error e => .error e
      | .ok kwargs =>
        match cls.entry kwargs with
        | .error s => .error ⟨.API_ERROR, "Error executing API: " ++ s⟩
        | .ok result =>
          match process_result cls (normalize_result cls.return_names result) with
          | .error e => .error ⟨.API_ERROR, "Error executing API: " ++ e.toStr⟩
          | .ok out => .ok out

/-- Python truthiness of a `PyVal`, used by the generator for the
`multiline` option. -/
def pyTruthy : PyVal → Bool
  | .none => false
  | .bool b => b
  | .int n => n != 0
  | .str s => s ≠ ""
  | .list xs => !xs.isEmpty
  | .tuple xs => !xs.isEmpty
  | .dict kvs => !kvs.isEmpty
  | .decoded _ _ => true

/-- The numeric-constraint block of
`OpenAPIGenerator._convert_type_to_schema`: carry
min/max/step/default/placeholder from the options dict into the
property schema, in the source's order. -/
def applyNumericOpts (base : List (String × PyVal))
    (opts : List (String × PyVal)) : List (String × PyVal) :=
  let s := base
  let s := match dictGet opts "min" with
    | some v => dictInsert s "minimum" v | Option.none => s
  let s := match dictGet opts "max" with
    | some v => dictInsert s "maximum" v | Option.none => s
  let s := match dictGet opts "step" with
    | some v => dictInsert s "multipleOf" v | Option.none => s
  let s := match dictGet opts "default" with
    | some v => dictInsert s "default" v | Option.none => s
  let s := match dictGet opts "placeholder" with
    | some v => dictInsert s "description" v | Option.none => s
  s

/-- The string-constraint block of
`OpenAPIGenerator._convert_type_to_schema`:
multiline/default/placeholder. -/
def applyStringOpts (base : List (String × PyVal))
    (opts : List (String × PyVal)) : List (String × PyVal) :=
  let s := base
  let s := match dictGet opts "multiline" with
    | some v => if pyTruthy v then dictInsert s "format" (.str "text") else s
    | Option.none => s
  let s := match dictGet opts "default" with
    | some v => dictInsert s "default" v | Option.none => s
  let s := match dictGet opts "placeholder" with
    | some v => dictInsert s "description" v | Option.none => s
  s

/-- `OpenAPIGenerator._convert_type_to_schema`: a field declaration
(the `INPUT_TYPES` tuple) to an OpenAPI property schema. A list head is
an enum; IMAGE/VIDEO/FILE become base64 strings; FLOAT/NUMBER,
INT/INTEGER, BOOLEAN, STRING, DICT, LIST map to their schema types with
constraints from the options dict (the tuple's second element, when it
is a dict); anything else is the unknown-type fallback (the Python repr
interpolated into the description is abbreviated to the tag where the
tag is a string). -/
def convert_type_to_schema (typeInfo : PyVal) : PyVal :=
  match typeInfo with
  | .tuple (typeName :: rest) =>
    let opts : List (String × PyVal) :=
      match rest with
      | .dict o :: _ => o
      | _ => []
    match typeName with
    | .list enumVals => .dict [("type", .str "string"), ("enum", .list enumVals)]
    | .str name =>
      if name ∈ imageVideoFile then
        .dict [("type", .str "string"), ("format", .str "base64"),
               ("description", .str ("Base64 encoded " ++ name.toLower))]
      else if name = "FLOAT" ∨ name = "NUMBER" then
        .dict (applyNumericOpts [("type", .str "number")] opts)
      else if name = "INT" ∨ name = "INTEGER" then
        .dict (applyNumericOpts [("type", .str "integer")] opts)
      else if name = "BOOLEAN" then
        .dict [("type", .str "boolean")]
      else if name = "STRING" then
        .dict (applyStringOpts [("type", .str "string")] opts)
      else if name = "DICT" then
        .dict [("type", .str "object")]
      else if name = "LIST" then
        .dict [("type", .str "array")]
      else
        .dict [("type", .str "string"), ("description", "Unknown type: " ++ name |> .str)]
    | _ => .dict [("type", .str "string"), ("description", .str "Unknown type")]
  | _ => .dict [("type", .str "string"), ("description", .str "Unknown type")]

/-- The `required` loop of `OpenAPIGenerator._generate_request_schema`:
each required field adds its property schema and appends its name to the
schema's `required` list. -/
def reqSchemaLoop : List (String × PyVal) →
    List (String × PyVal) × List String → List (String × PyVal) × List String
  | [], acc => acc
  | (field, typeInfo) :: rest, (props, reqd) =>
    reqSchemaLoop rest (dictInsert props field (convert_type_to_schema typeInfo), reqd ++ [field])

/-- The `optional` loop of `OpenAPIGenerator._generate_request_schema`:
each optional field adds its property schema only. -/
def optSchemaLoop : List (String × PyVal) →
    List (String × PyVal) → List (String × PyVal)
  | [], props => props
  | (field, typeInfo) :: rest, props =>
    optSchemaLoop rest (dictInsert props field (convert_type_to_schema typeInfo))

/-- `OpenAPIGenerator._generate_request_schema`: the object schema with
`properties` from both sections and `required` listing exactly the
required-section fields in order. -/
def generate_request_schema (it : InputTypes) : PyVal :=
  let step1 := reqSchemaLoop it.required ([], [])
  let props := optSchemaLoop it.optional step1.1
  .dict [("type", .str "object"),
         ("properties", .dict props),
         ("required", .list (step1.2.map PyVal.str))]

/-- The `required` list of a generated schema, read back from the
schema document. -/
def schemaRequiredList (schema : PyVal) : List String :=
  match schema with
  | .dict kvs =>
    match dictGet kvs "required" with
    | some (.list vs) => vs.filterMap (fun v => match v with | .str s => some s | _ => Option.none)
    | _ => []
  | _ => []

/-- The `properties` map of a generated schema, read back from the
schema document. -/
def schemaProperties (schema : PyVal) : List (String × PyVal) :=
  match schema with
  | .dict kvs =>
    match dictGet kvs "properties" with
    | some (.dict ps) => ps
    | _ => []
  | _ => []

/-- The authentication-exempt path prefixes of
`SecurityManager.authenticate_request`:
`request.url.path.startswith(("/docs", "/redoc", "/openapi.json",
"/favicon.ico"))`. The prefix test is taken on the character list. -/
def exemptPath (path : String) : Bool :=
  ["/docs", "/redoc", "/openapi.json", "/favicon.ico"].any
    (fun p => p.data.isPrefixOf path.data)

/-- An inbound HTTP request as far as the middleware inspects it: the
URL path and the bearer credential (when an `Authorization: Bearer`
header is present and well-formed; `HTTPBearer` raises for an absent or
malformed header). -/
structure HttpRequest where
  path : String
  bearer : Option String

/-- Outcome of the authentication middleware: either `call_next` runs
(endpoint logic is reached) or a JSON error response is returned in its
place, carrying the HTTP status and the error body. -/
inductive AuthOutcome where
  | forwarded
  | rejected (statusCode : Nat) (body : APIError)
  deriving Repr, DecidableEq

/-- `SecurityManager.authenticate_request`: exempt path prefixes skip
authentication entirely; otherwise a missing/malformed bearer header
(the `HTTPException` arm) yields 401 "Authentication required", an
unknown key yields UNAUTHORIZED "Invalid API key", and a configured key
is forwarded. -/
def authenticate_request (api_keys : List String) (req : HttpRequest) :
    AuthOutcome :=
  if exemptPath req.path then .forwarded
  else
    match req.bearer with
    | Option.none => .rejected 401 ⟨.UNAUTHORIZED, "Authentication required"⟩
    | some key =>
      if key ∈ api_keys then .forwarded
      else .rejected APIErrorCode.UNAUTHORIZED.value ⟨.UNAUTHORIZED, "Invalid API key"⟩

/-- A `QueueItem` from `models/queue.py`: the persisted Job record.
Timestamps are abstract ticks. -/
structure QueueItem where
  queue_id : String
  api_key : String
  endpoint : String
  data : PyVal
  status : String
  result : Option PyVal
  error : Option PyVal
  created_at : Nat
  updated_at : Nat

/-- The `QueueManager`'s mutable state: the Job map (`self.queue`, an
insertion-ordered dict) and the contents of the dispatch channel
(`self.processing_queue`, FIFO front first). -/
structure QueueState where
  queue : List (String × QueueItem)
  processing : List String

/-- Whether `status` counts as incomplete in `_load_state`
(`item.status in ["queued", "processing"]`). -/
def incompleteStatus (status : String) : Bool :=
  status = "queued" || status = "processing"

/-- The item loop of `QueueManager._load_state` over the parsed state
file. Incomplete items are reset to `queued` (with a fresh
`updated_at`), stored in the Job map, and re-enqueued with
`put_nowait`; `put_nowait` on a bounded full channel (`maxsize > 0` and
`qsize ≥ maxsize`, the asyncio.Queue rule) raises `QueueFull`, which
aborts the loop — the outer handler logs and cleans the temp dir,
keeping the partially loaded state (the raising item is already in the
Job map). Completed/failed items are stored unchanged. -/
def load_state_items (maxsize now : Nat) :
    List QueueItem → QueueState → QueueState
  | [], st => st
  | item :: rest, st =>
    if incompleteStatus item.status then
      let item2 := { item with status := "queued", updated_at := now }
      let st2 := { st with queue := dictInsert st.queue item.queue_id item2 }
      if maxsize = 0 ∨ st2.processing.length < maxsize then
        load_state_items maxsize now rest
          { st2 with processing := st2.processing ++ [item.queue_id] }
      else st2
    else
      load_state_items maxsize now rest
        { st with queue := dictInsert st.queue item.queue_id item }

/-- `QueueManager._load_state` starting from the freshly constructed
(empty) manager, with the state file already parsed into its items. -/
def load_state (maxsize now : Nat) (items : List QueueItem) : QueueState :=
  load_state_items maxsize now items ⟨[], []⟩

/-- `QueueManager.add_to_queue`: reject with the queue-full API_ERROR
when `qsize ≥ max_queue_size` (leaving all state untouched); otherwise
create the Job in `queued` state, store it, enqueue its ID and return
it. The generated uuid and the wall clock are passed in. -/
def add_to_queue (maxsize : Nat) (st : QueueState) (api_key endpoint : String)
    (data : PyVal) (new_id : String) (now : Nat) :
    QueueState × Except APIError String :=
  if st.processing.length ≥ maxsize then
    (st, .error ⟨.API_ERROR, "Queue is full"⟩)
  else
    let item : QueueItem :=
      ⟨new_id, api_key, endpoint, data, "queued", Option.none, Option.none, now, now⟩
    ({ queue := dictInsert st.queue new_id item,
       processing := st.processing ++ [new_id] },
     .ok new_id)

/-- `QueueManager.get_queue_status`: unknown ID is NOT_FOUND; a caller
whose key differs from the Job's owning key is UNAUTHORIZED; otherwise
the stored result (completed), the stored error body (failed), or the
pending marker. The method only reads the Job map. -/
def get_queue_status (st : QueueState) (queue_id api_key : String) :
    Except APIError PyVal :=
  match dictGet st.queue queue_id with
  | Option.none => .error ⟨.NOT_FOUND, "Queue item " ++ queue_id ++ " not found"⟩
  | some item =>
    if item.api_key ≠ api_key then
      .error ⟨.UNAUTHORIZED, "Not authorized to access this queue item"⟩
    else if item.status = "completed" then .ok (item.result.getD .none)
    else if item.status = "failed" then .ok (item.error.getD .none)
    else .ok (.dict [("queue_id", .str queue_id)])

/-! ## Helper lemmas on the dict model -/

theorem dictGet_dictInsert_self {α : Type} (d : List (String × α)) (k : String) (v : α) :
    dictGet (dictInsert d k v) k = some v := by
  induction d with
  | nil => simp [dictInsert, dictGet]
  | cons hd tl ih =>
    by_cases h : hd.1 = k
    · simp [dictInsert, dictGet, h]
    · simp [dictInsert, dictGet, h, ih]

theorem dictGet_dictInsert_preserve {α : Type} (d : List (String × α))
    (k f : String) (v : α) (h : ∃ w, dictGet d f = some w) :
    ∃ w, dictGet (dictInsert d k v) f = some w := by
  by_cases hkf : k = f
  · exact ⟨v, hkf ▸ dictGet_dictInsert_self d k v⟩
  · induction d with
    | nil =>
      obtain ⟨w, hw⟩ := h
      simp [dictGet] at hw
    | cons hd tl ih =>
      by_cases h1 : hd.1 = k
      · obtain ⟨w, hw⟩ := h
        simp [dictGet, h1, hkf] at hw
        exact ⟨w, by simp [dictInsert, dictGet, h1, hkf, hw]⟩
      · by_cases h2 : hd.1 = f
        · have hfk : ¬f = k := fun hx => hkf hx.symm
          exact ⟨hd.2, by simp [dictInsert, dictGet, h1, h2, hfk]⟩
        · obtain ⟨w, hw⟩ := h
          simp [dictGet, h2] at hw
          obtain ⟨w2, hw2⟩ := ih ⟨w, hw⟩
          exact ⟨w2, by simp [dictInsert, dictGet, h1, h2, hw2]⟩

theorem dictInsert_eq_append {α : Type} (d : List (String × α)) (k : String) (v : α)
    (h : k ∉ d.map Prod.fst) : dictInsert d k v = d ++ [(k, v)] := by
  induction d with
  | nil => simp [dictInsert]
  | cons hd tl ih =>
    simp only [List.map_cons, List.mem_cons] at h
    push_neg at h
    simp [dictInsert, Ne.symm h.1, ih h.2]

theorem mem_dictInsert {α : Type} (x : String × α) (d : List (String × α))
    (k : String) (v : α) (h : x ∈ dictInsert d k v) : x ∈ d ∨ x = (k, v) := by
  induction d with
  | nil => simp [dictInsert] at h; simp [h]
  | cons hd tl ih =>
    by_cases h1 : hd.1 = k
    · simp [dictInsert, h1] at h
      rcases h with h | h
      · right; rw [h, ← h1]
      · left; simp [h]
    · simp [dictInsert, h1] at h
      rcases h with h | h
      · left; simp [h]
      · rcases ih h with h2 | h2
        · left; simp [h2]
        · right; exact h2

theorem append_ne_empty (a b : String) (h : a.length ≠ 0) : a ++ b ≠ "" := by
  intro hc
  have hl := congrArg String.length hc
  simp [String.length_append] at hl
  omega

/-! ## Claim theorems -/

/-- C2: for every Job map state and credential, status retrieval succeeds
exactly when the caller's credential equals the Job's owning credential;
a mismatched credential receives UNAUTHORIZED and an unknown Job ID
receives NOT_FOUND. `get_queue_status` is a pure observer of the state,
so the Job map is unchanged by construction. -/
theorem get_queue_status_owner_only (st : QueueState) (queue_id api_key : String) :
    (dictGet st.queue queue_id = Option.none →
      get_queue_status st queue_id api_key =
        .error ⟨.NOT_FOUND, "Queue item " ++ queue_id ++ " not found"⟩) ∧
    (∀ item, dictGet st.queue queue_id = some item → item.api_key ≠ api_key →
      get_queue_status st queue_id api_key =
        .error ⟨.UNAUTHORIZED, "Not authorized to access this queue item"⟩) ∧
    (∀ item, dictGet st.queue queue_id = some item → item.api_key = api_key →
      ∃ v, get_queue_status st queue_id api_key = .ok v) := by
  refine ⟨fun h => by simp [get_queue_status, h], fun item h hne => by
    simp [get_queue_status, h, hne], fun item h he => ?_⟩
  simp only [get_queue_status, h, he, ne_eq, not_true_eq_false, if_false]
  split
  · exact ⟨_, rfl⟩
  · split
    · exact ⟨_, rfl⟩
    · exact ⟨_, rfl⟩

/-- Witness for C2: a concrete one-Job state; the owning key reads the
pending marker, a foreign key is UNAUTHORIZED, an unknown ID is
NOT_FOUND. -/
theorem get_queue_status_owner_only_witness :
    get_queue_status ⟨[("j1", ⟨"j1", "k1", "ep", .none, "queued",
        Option.none, Option.none, 0, 0⟩)], []⟩ "j1" "k2" =
      .error ⟨.UNAUTHORIZED, "Not authorized to access this queue item"⟩ ∧
    get_queue_status ⟨[("j1", ⟨"j1", "k1", "ep", .none, "queued",
        Option.none, Option.none, 0, 0⟩)], []⟩ "zz" "k1" =
      .error ⟨.NOT_FOUND, "Queue item " ++ "zz" ++ " not found"⟩ ∧
    ∃ v, get_queue_status ⟨[("j1", ⟨"j1", "k1", "ep", .none, "queued",
        Option.none, Option.none, 0, 0⟩)], []⟩ "j1" "k1" = .ok v :=
  ⟨(get_queue_status_owner_only ⟨[("j1", ⟨"j1", "k1", "ep", .none, "queued",
      Option.none, Option.none, 0, 0⟩)], []⟩ "j1" "k2").2.1 _ rfl (by decide),
   (get_queue_status_owner_only ⟨[("j1", ⟨"j1", "k1", "ep", .none, "queued",
      Option.none, Option.none, 0, 0⟩)], []⟩ "zz" "k1").1 rfl,
   (get_queue_status_owner_only ⟨[("j1", ⟨"j1", "k1", "ep", .none, "queued",
      Option.none, Option.none, 0, 0⟩)], []⟩ "j1" "k1").2.2 _ rfl rfl⟩

/-- C3: a submission arriving while the dispatch channel holds at least
`max_queue_size` entries is rejected with the explicit "Queue is full"
error (an admission-time error whose fixed message is distinct from the
per-Job execution errors), the whole queue state — in particular the Job
map — is returned unchanged, and no Job is created. -/
theorem add_to_queue_full_rejects (maxsize : Nat) (st : QueueState)
    (api_key endpoint : String) (data : PyVal) (new_id : String) (now : Nat)
    (h : st.processing.length ≥ maxsize) :
    add_to_queue maxsize st api_key endpoint data new_id now =
      (st, .error ⟨.API_ERROR, "Queue is full"⟩) := by
  simp [add_to_queue, h]

/-- Witness for C3: a queue at its configured depth 1 rejects a
submission and is left unchanged. -/
theorem add_to_queue_full_rejects_witness :
    add_to_queue 1 ⟨[("a", ⟨"a", "k", "ep", .none, "queued",
        Option.none, Option.none, 0, 0⟩)], ["a"]⟩ "k" "ep" .none "b" 5 =
      (⟨[("a", ⟨"a", "k", "ep", .none, "queued",
        Option.none, Option.none, 0, 0⟩)], ["a"]⟩,
       .error ⟨.API_ERROR, "Queue is full"⟩) :=
  add_to_queue_full_rejects 1 _ "k" "ep" .none "b" 5 (by decide)

/-- C6: whenever the looked-up handler's entry method raises (for any
endpoint, any prepared arguments, any exception text), the engine
returns the structured API_ERROR `"Error executing API: " ++ msg`
carrying the handler's exception text. `execute_api` is a total function
into `Except APIError PyVal`, so no result other than a structured error
or a value ever leaves the engine. -/
theorem execute_api_handler_error (apis : List (String × NodeClass))
    (api_path : String) (cls : NodeClass) (fn : String)
    (data kwargs : List (String × PyVal)) (msg : String)
    (hfind : dictGet apis api_path = some cls)
    (hfn : cls.function = some fn)
    (hprep : prepare_arguments data (get_input_types cls) = .ok kwargs)
    (hrun : cls.entry kwargs = .error msg) :
    execute_api apis api_path data =
      .error ⟨.API_ERROR, "Error executing API: " ++ msg⟩ := by
  simp [execute_api, hfind, hfn, hprep, hrun]

/-- A concrete handler class whose entry method always raises, for the
C6 witness. -/
def raisingClass : NodeClass where
  input_types := some ⟨[], []⟩
  return_types := .tags ["STRING"]
  return_names := some ["out"]
  function := some "run"
  methods := ["run"]
  entry := fun _ => .error "boom"

/-- Witness for C6: the raising handler's message is carried in the
API_ERROR. -/
theorem execute_api_handler_error_witness :
    execute_api [("m/f", raisingClass)] "m/f" [] =
      .error ⟨.API_ERROR, "Error executing API: " ++ "boom"⟩ :=
  execute_api_handler_error [("m/f", raisingClass)] "m/f" raisingClass
    "run" [] [] "boom" rfl rfl rfl rfl

/-- Whether a `PyVal` is a Python tuple. -/
def isTupleVal : PyVal → Bool
  | .tuple _ => true
  | _ => false

/-- Whether a `PyVal` is a Python dict. -/
def isDictVal : PyVal → Bool
  | .dict _ => true
  | _ => false

/-- C10: a handler result that is neither a tuple nor a dict skips both
the named-field normalization and `_process_result`'s base64 encoding
and is returned by the engine unchanged, whatever binary tags the
Output Spec declares. -/
theorem execute_api_passthrough_result (apis : List (String × NodeClass))
    (api_path : String) (cls : NodeClass) (fn : String)
    (data kwargs : List (String × PyVal)) (v : PyVal)
    (hfind : dictGet apis api_path = some cls)
    (hfn : cls.function = some fn)
    (hprep : prepare_arguments data (get_input_types cls) = .ok kwargs)
    (hrun : cls.entry kwargs = .ok v)
    (htup : isTupleVal v = false) (hdict : isDictVal v = false) :
    execute_api apis api_path data = .ok v := by
  have hnorm : normalize_result cls.return_names v = v := by
    cases v <;> simp_all [normalize_result, isTupleVal]
  have hproc : process_result cls v = .ok v := by
    cases v <;> simp_all [process_result, isDictVal]
  simp [execute_api, hfind, hfn, hprep, hrun, hnorm, hproc]

/-- A concrete handler class that declares a binary (IMAGE) output slot
but returns a bare string, for the C10 witness. -/
def scalarReturnClass : NodeClass where
  input_types := some ⟨[], []⟩
  return_types := .tags ["IMAGE"]
  return_names := some ["image"]
  function := some "run"
  methods := ["run"]
  entry := fun _ => .ok (.str "raw-result")

/-- Witness for C10: the bare string result of a binary-declared
endpoint comes back unchanged, unencoded. -/
theorem execute_api_passthrough_result_witness :
    execute_api [("m/s", scalarReturnClass)] "m/s" [] = .ok (.str "raw-result") :=
  execute_api_passthrough_result [("m/s", scalarReturnClass)] "m/s"
    scalarReturnClass "run" [] [] (.str "raw-result") rfl rfl rfl rfl rfl rfl

/-- Folding Python dict insertion over pairs with pairwise-distinct,
fresh keys is plain concatenation. -/
theorem foldl_dictInsert_fresh {α : Type} (ps : List (String × α)) :
    ∀ acc : List (String × α),
    (∀ p ∈ ps, p.1 ∉ acc.map Prod.fst) →
    (ps.map Prod.fst).Nodup →
    ps.foldl (fun d p => dictInsert d p.1 p.2) acc = acc ++ ps := by
  induction ps with
  | nil => intro acc _ _; simp
  | cons hd tl ih =>
    intro acc hfresh hnodup
    simp only [List.map_cons, List.nodup_cons] at hnodup
    simp only [List.foldl_cons]
    rw [dictInsert_eq_append _ _ _ (hfresh hd (by simp))]
    rw [ih (acc ++ [hd]) ?_ hnodup.2]
    · simp
    · intro p hp
      simp only [List.map_append, List.mem_append]
      push_neg
      refine ⟨hfresh p (by simp [hp]), ?_⟩
      intro hmem
      simp only [List.map_cons, List.map_nil, List.mem_singleton] at hmem
      exact hnodup.1 (hmem ▸ List.mem_map_of_mem Prod.fst hp)

/-- C8: a tuple result is normalized into the named map that pairs each
position `i` with `returnNameAt` — the Output Spec's declared name
`RETURN_NAMES[i]` when one exists, the generated `output_i` otherwise —
and a dict result is used directly. The hypothesis says the assigned
names are pairwise distinct (the named map loses no pair to
overwriting), which holds for any well-formed Output Spec. -/
theorem execute_api_tuple_result_naming (rn : Option (List String)) (xs : List PyVal)
    (hnodup : (xs.enum.map (fun iv => returnNameAt rn iv.1)).Nodup) :
    normalize_result rn (.tuple xs) =
      .dict (xs.enum.map (fun iv => (returnNameAt rn iv.1, iv.2)))
    ∧ ∀ kvs : List (String × PyVal), normalize_result rn (.dict kvs) = .dict kvs := by
  constructor
  · show PyVal.dict (buildNamed rn xs) = _
    unfold buildNamed
    have h1 : xs.enum.foldl
        (fun d iv => dictInsert d (returnNameAt rn iv.1) iv.2)
        ([] : List (String × PyVal)) =
        (xs.enum.map (fun iv => (returnNameAt rn iv.1, iv.2))).foldl
          (fun d p => dictInsert d p.1 p.2) [] := by
      rw [List.foldl_map]
    rw [h1, foldl_dictInsert_fresh _ _ (by simp) ?_]
    · simp
    · rw [List.map_map]
      exact hnodup
  · intro kvs; rfl

/-- Witness for C8: two positional outputs against a single declared
name; position 0 takes the declared name, position 1 the generated
`output_1`; a dict result passes through. -/
theorem execute_api_tuple_result_naming_witness :
    normalize_result (some ["first"]) (.tuple [.str "x", .str "y"]) =
      .dict [("first", .str "x"), ("output_1", .str "y")] ∧
    normalize_result (some ["first"]) (.dict [("k", .str "v")]) =
      .dict [("k", .str "v")] :=
  ⟨((execute_api_tuple_result_naming (some ["first"]) [.str "x", .str "y"]
      (by decide)).1).trans rfl,
   (execute_api_tuple_result_naming (some ["first"]) [.str "x", .str "y"]
      (by decide)).2 [("k", .str "v")]⟩

/-- C4 counterexample: the claim names the schema routes
`/openapi/openapi.json` and `/openapi/{module}.json` as exempt from the
credential requirement, but the middleware's exempt prefixes are
`/docs`, `/redoc`, `/openapi.json` and `/favicon.ico`, and
`"/openapi/openapi.json"` matches none of them — a request to the schema
route without a credential is rejected with UNAUTHORIZED instead of
being forwarded. -/
theorem openapi_route_not_exempt_cex :
    authenticate_request [] ⟨"/openapi/openapi.json", Option.none⟩ =
      .rejected 401 ⟨.UNAUTHORIZED, "Authentication required"⟩ ∧
    authenticate_request ["good-key"] ⟨"/openapi/image_processing.json", Option.none⟩ =
      .rejected 401 ⟨.UNAUTHORIZED, "Authentication required"⟩ ∧
    exemptPath "/openapi/openapi.json" = false := by
  refine ⟨?_, ?_, by decide⟩ <;> simp [authenticate_request, exemptPath]

/-- C4 (amended): every inbound REST call without a valid bearer
credential is rejected with an UNAUTHORIZED response in place of running
`call_next` (so before any endpoint logic), except requests whose path
starts with `/docs`, `/redoc`, `/openapi.json` or `/favicon.ico` (the
framework documentation paths), which skip authentication; the server's
own schema routes under `/openapi/` are not exempt. -/
theorem authenticate_request_gate (api_keys : List String) (req : HttpRequest)
    (hnv : ∀ k, req.bearer = some k → k ∉ api_keys) :
    (exemptPath req.path = true → authenticate_request api_keys req = .forwarded) ∧
    (exemptPath req.path = false →
      ∃ body, authenticate_request api_keys req = .rejected 401 body ∧
        body.code = .UNAUTHORIZED) := by
  constructor
  · intro h; simp [authenticate_request, h]
  · intro h
    cases hb : req.bearer with
    | none =>
      exact ⟨⟨.UNAUTHORIZED, "Authentication required"⟩,
        by simp [authenticate_request, h, hb], rfl⟩
    | some k =>
      refine ⟨⟨.UNAUTHORIZED, "Invalid API key"⟩, ?_, rfl⟩
      simp [authenticate_request, h, hb, hnv k hb, APIErrorCode.value]

/-- Witness for C4 (amended): a wrong key on an API route is rejected
with 401 UNAUTHORIZED. -/
theorem authenticate_request_gate_witness :
    ∃ body, authenticate_request ["good-key"] ⟨"/api/text_processing/textAnalyzer", some "bad-key"⟩ =
      .rejected 401 body ∧ body.code = .UNAUTHORIZED :=
  (authenticate_request_gate ["good-key"]
    ⟨"/api/text_processing/textAnalyzer", some "bad-key"⟩
    (fun k hk => by simp at hk; subst hk; decide)).2 (by decide)

/-- The `required` list accumulated by the required-section loop is the
incoming list followed by the section's field names in order. -/
theorem reqSchemaLoop_snd (fields : List (String × PyVal)) :
    ∀ (props : List (String × PyVal)) (reqd : List String),
    (reqSchemaLoop fields (props, reqd)).2 = reqd ++ fields.map Prod.fst := by
  induction fields with
  | nil => intro props reqd; simp [reqSchemaLoop]
  | cons hd tl ih =>
    intro props reqd
    obtain ⟨f, ti⟩ := hd
    simp [reqSchemaLoop, ih]

/-- The optional-section loop never removes a property key. -/
theorem optSchemaLoop_preserves (fields : List (String × PyVal)) :
    ∀ (props : List (String × PyVal)) (f : String),
    (∃ v, dictGet props f = some v) →
    ∃ v, dictGet (optSchemaLoop fields props) f = some v := by
  induction fields with
  | nil => intro props f h; simpa [optSchemaLoop] using h
  | cons hd tl ih =>
    intro props f h
    obtain ⟨fld, ti⟩ := hd
    exact ih _ f (dictGet_dictInsert_preserve props fld f _ h)

/-- Every optional-section field name ends up among the property keys. -/
theorem optSchemaLoop_mem (fields : List (String × PyVal)) :
    ∀ (props : List (String × PyVal)) (f : String),
    f ∈ fields.map Prod.fst →
    ∃ v, dictGet (optSchemaLoop fields props) f = some v := by
  induction fields with
  | nil => intro props f h; simp at h
  | cons hd tl ih =>
    intro props f h
    obtain ⟨fld, ti⟩ := hd
    simp only [List.map_cons, List.mem_cons] at h
    rcases h with h | h
    · subst h
      exact optSchemaLoop_preserves tl _ f
        ⟨_, dictGet_dictInsert_self props f (convert_type_to_schema ti)⟩
    · exact ih _ f h

/-- Reading back a list of string literals from the schema document. -/
theorem filterMap_str_roundtrip (l : List String) :
    (l.map PyVal.str).filterMap
      (fun v => match v with | .str s => some s | _ => Option.none) = l := by
  induction l with
  | nil => rfl
  | cons hd tl ih => simp [List.filterMap_cons, ih]

/-- C7: the generated request schema's `required` list equals exactly
the Input Spec's required-section field names (no more, no fewer), and
every optional field appears among the schema's properties but not in
its `required` list. The hypothesis states the Endpoint Descriptor
invariant that a field is required or optional, not both. -/
theorem request_schema_required_exact (it : InputTypes)
    (hdisj : ∀ f, f ∈ it.optional.map Prod.fst → f ∉ it.required.map Prod.fst) :
    schemaRequiredList (generate_request_schema it) = it.required.map Prod.fst ∧
    ∀ f, f ∈ it.optional.map Prod.fst →
      (∃ v, dictGet (schemaProperties (generate_request_schema it)) f = some v) ∧
      f ∉ schemaRequiredList (generate_request_schema it) := by
  have hreq : schemaRequiredList (generate_request_schema it) =
      it.required.map Prod.fst := by
    simp only [generate_request_schema, schemaRequiredList, dictGet,
      reqSchemaLoop_snd, List.nil_append]
    rw [if_neg (by decide : ¬("type" = "required")),
      if_neg (by decide : ¬("properties" = "required")), if_pos trivial]
    exact filterMap_str_roundtrip (it.required.map Prod.fst)
  refine ⟨hreq, fun f hf => ⟨?_, ?_⟩⟩
  · have : schemaProperties (generate_request_schema it) =
        optSchemaLoop it.optional (reqSchemaLoop it.required ([], [])).1 := by
      simp [generate_request_schema, schemaProperties, dictGet]
    rw [this]
    exact optSchemaLoop_mem it.optional _ f hf
  · rw [hreq]
    exact hdisj f hf

/-- Witness for C7: a two-field spec (`text` required STRING, `limit`
optional INT): the schema requires exactly `text`, and `limit` is a
property but not required. -/
theorem request_schema_required_exact_witness :
    schemaRequiredList (generate_request_schema
      ⟨[("text", .tuple [.str "STRING"])], [("limit", .tuple [.str "INT"])]⟩) =
      ["text"] ∧
    (∃ v, dictGet (schemaProperties (generate_request_schema
      ⟨[("text", .tuple [.str "STRING"])], [("limit", .tuple [.str "INT"])]⟩)) "limit" = some v) ∧
    "limit" ∉ schemaRequiredList (generate_request_schema
      ⟨[("text", .tuple [.str "STRING"])], [("limit", .tuple [.str "INT"])]⟩) := by
  have h := request_schema_required_exact
    ⟨[("text", .tuple [.str "STRING"])], [("limit", .tuple [.str "INT"])]⟩
    (by intro f hf; simp at hf; subst hf; decide)
  exact ⟨h.1, (h.2 "limit" (by decide)).1, (h.2 "limit" (by decide)).2⟩

/-- A four-part concatenation with a non-empty first part is non-empty. -/
theorem append3_ne_empty (a b c d : String) (h : a.length ≠ 0) :
    a ++ b ++ c ++ d ≠ "" := by
  intro hc
  have hl := congrArg String.length hc
  simp only [String.length_append] at hl
  have h0 : ("" : String).length = 0 := rfl
  rw [h0] at hl
  omega

/-- A tag list containing an unsupported tag always fails the output
loop with a non-empty reason. -/
theorem checkOutputTags_err (cls : NodeClass) (t : String)
    (ht : t ∉ SUPPORTED_TYPES) (ts : List String) :
    ∀ (i : Nat) (conv : List String), t ∈ ts →
    ∃ r, checkOutputTags cls i ts conv = .error r ∧ r ≠ "" := by
  induction ts with
  | nil => intro i conv h; simp at h
  | cons u rest ih =>
    intro i conv h
    by_cases hbad : u ∉ SUPPORTED_TYPES ∧ u ∉ imageVideoFile
    · refine ⟨"Unsupported return type " ++ u ++ " at position " ++ toString i,
        ?_, ?_⟩
      · simp [checkOutputTags, hbad]
      · exact append3_ne_empty "Unsupported return type " u " at position "
          (toString i) (by decide)
    · have hu : u ∈ SUPPORTED_TYPES := by
        push_neg at hbad
        by_cases h1 : u ∈ SUPPORTED_TYPES
        · exact h1
        · exact (by decide : ∀ x ∈ imageVideoFile, x ∈ SUPPORTED_TYPES) u (hbad h1)
      have hne : t ≠ u := fun he => ht (he ▸ hu)
      have hrest : t ∈ rest := by
        rcases List.mem_cons.mp h with h2 | h2
        · exact absurd h2 hne
        · exact h2
      by_cases hivf : u ∈ imageVideoFile
      · obtain ⟨r, hr, hrne⟩ :=
          ih (i + 1) (setAdd conv (returnNameAt cls.return_names i)) hrest
        exact ⟨r, by simp [checkOutputTags, hivf, hr], hrne⟩
      · obtain ⟨r, hr, hrne⟩ := ih (i + 1) conv hrest
        exact ⟨r, by simp [checkOutputTags, hu, hivf, hr], hrne⟩

/-- Everything the loader's registry loop puts into the endpoint table
came either from the seed registry or from a candidate that passed the
compatibility check. -/
theorem mem_load_apis_from (cands : List Candidate) :
    ∀ (apis : List (String × NodeClass)) (x : String × NodeClass),
    x ∈ load_apis_from cands apis →
    x ∈ apis ∨ ∃ c1 c2, check_node_compatibility x.2 = .fullyCompatible c1 c2 := by
  induction cands with
  | nil => intro apis x h; exact Or.inl (by simpa [load_apis_from] using h)
  | cons c rest ih =>
    intro apis x h
    cases hv : check_node_compatibility c.cls with
    | fullyCompatible a b =>
      rw [load_apis_from, hv] at h
      rcases ih _ x h with h2 | h2
      · rcases mem_dictInsert x apis c.api_path c.cls h2 with h3 | h3
        · exact Or.inl h3
        · exact Or.inr ⟨a, b, by rw [h3]; exact hv⟩
      · exact Or.inr h2
    | incompatible r =>
      rw [load_apis_from, hv] at h
      rcases ih _ x h with h2 | h2
      · exact Or.inl h2
      · exact Or.inr h2

/-- C5: a handler class whose `RETURN_TYPES` tuple contains a type tag
outside the supported set is classified INCOMPATIBLE with a non-empty
reason string, and no run of the loader ever enters that class into the
live endpoint table. -/
theorem unsupported_output_rejected (cls : NodeClass) (ts : List String)
    (t : String) (hts : cls.return_types = .tags ts) (hmem : t ∈ ts)
    (hbad : t ∉ SUPPORTED_TYPES) :
    (∃ r, check_node_compatibility cls = .incompatible r ∧ r ≠ "") ∧
    ∀ (cands : List Candidate) (p : String), (p, cls) ∉ load_apis cands := by
  have hout : ∃ r, checkOutputTypes cls = .error r ∧ r ≠ "" := by
    rw [checkOutputTypes, hts]
    exact checkOutputTags_err cls t hbad ts 0 [] hmem
  have hinc : ∃ r, check_node_compatibility cls = .incompatible r ∧ r ≠ "" := by
    obtain ⟨oit, rt, rn, ofn, ms, ent⟩ := cls
    simp only at hts
    subst hts
    cases oit with
    | none => exact ⟨_, rfl, by decide⟩
    | some it =>
      cases ofn with
      | none => exact ⟨_, rfl, by decide⟩
      | some fn =>
        cases h1 : checkInputTypes it with
        | error r =>
          refine ⟨_, ?_, append_ne_empty "Incompatible inputs: " r (by decide)⟩
          simp [check_node_compatibility, h1]
        | ok conv =>
          obtain ⟨r, hr, hrne⟩ := hout
          refine ⟨_, ?_, append_ne_empty "Incompatible outputs: " r (by decide)⟩
          simp [check_node_compatibility, h1, hr]
  refine ⟨hinc, fun cands p hm => ?_⟩
  rcases mem_load_apis_from cands [] (p, cls) hm with h | ⟨c1, c2, hc⟩
  · simp at h
  · obtain ⟨r, hr, _⟩ := hinc
    rw [show (p, cls).2 = cls from rfl, hr] at hc
    exact Verdict.noConfusion hc

/-- A concrete handler class declaring an unsupported output tag
(`TENSOR`), for the C5 witness. -/
def badOutputClass : NodeClass where
  input_types := some ⟨[("text", .tuple [.str "STRING"])], []⟩
  return_types := .tags ["STRING", "TENSOR"]
  return_names := some ["a", "b"]
  function := some "run"
  methods := ["run"]
  entry := fun _ => .ok .none

/-- Witness for C5: the `TENSOR`-returning class is INCOMPATIBLE with a
non-empty reason and absent from the table the loader builds from it. -/
theorem unsupported_output_rejected_witness :
    (∃ r, check_node_compatibility badOutputClass = .incompatible r ∧ r ≠ "") ∧
    ("comfyui/badNode", badOutputClass) ∉
      load_apis [⟨"comfyui/badNode", badOutputClass, false⟩] :=
  ⟨(unsupported_output_rejected badOutputClass ["STRING", "TENSOR"] "TENSOR"
      rfl (by decide) (by decide)).1,
   (unsupported_output_rejected badOutputClass ["STRING", "TENSOR"] "TENSOR"
      rfl (by decide) (by decide)).2 [⟨"comfyui/badNode", badOutputClass, false⟩]
      "comfyui/badNode"⟩

/-- Whether a `PyVal` is a non-empty Python tuple — the only shape in
which `_check_input_types` and `_prepare_arguments` look at a field's
declared type. -/
def isNonemptyTuple : PyVal → Bool
  | .tuple (_ :: _) => true
  | _ => false

/-- One step of the input-section loop either fails independently of the
remaining fields or continues on them with some convertible set. -/
theorem checkFields_cons_cases (g : String) (gti : PyVal) (conv : List String) :
    (∃ r, ∀ rest, checkFields ((g, gti) :: rest) conv = .error r) ∨
    (∃ conv2, ∀ rest, checkFields ((g, gti) :: rest) conv = checkFields rest conv2) := by
  cases gti with
  | tuple xs =>
    cases xs with
    | nil => exact Or.inr ⟨conv, fun rest => rfl⟩
    | cons hd2 tl2 =>
      cases hd2 with
      | str tn =>
        by_cases h1 : tn ∉ SUPPORTED_TYPES ∧ tn ∉ imageVideoFile
        · exact Or.inl ⟨"Unsupported type " ++ tn ++ " for " ++ g,
            fun rest => by simp [checkFields, h1]⟩
        · by_cases h2 : tn ∈ imageVideoFile
          · exact Or.inr ⟨setAdd conv g, fun rest => by simp [checkFields, h2]⟩
          · have hsup : tn ∈ SUPPORTED_TYPES := by
              by_cases hs : tn ∈ SUPPORTED_TYPES
              · exact hs
              · exact absurd (not_and.mp h1 hs |> not_not.mp) h2
            exact Or.inr ⟨conv, fun rest => by simp [checkFields, hsup, h2]⟩
      | none => exact Or.inr ⟨conv, fun rest => rfl⟩
      | bool b => exact Or.inr ⟨conv, fun rest => rfl⟩
      | int n => exact Or.inr ⟨conv, fun rest => rfl⟩
      | list l => exact Or.inr ⟨conv, fun rest => rfl⟩
      | tuple l => exact Or.inr ⟨conv, fun rest => rfl⟩
      | dict d => exact Or.inr ⟨conv, fun rest => rfl⟩
      | decoded a b => exact Or.inr ⟨conv, fun rest => rfl⟩
  | none => exact Or.inr ⟨conv, fun rest => rfl⟩
  | bool b => exact Or.inr ⟨conv, fun rest => rfl⟩
  | int n => exact Or.inr ⟨conv, fun rest => rfl⟩
  | str s => exact Or.inr ⟨conv, fun rest => rfl⟩
  | list l => exact Or.inr ⟨conv, fun rest => rfl⟩
  | dict d => exact Or.inr ⟨conv, fun rest => rfl⟩
  | decoded a b => exact Or.inr ⟨conv, fun rest => rfl⟩

/-- A concrete handler class declaring a required field with a bare
unsupported string tag (`"TENSOR"`, not wrapped in a tuple), for the C9
theorem and witness. -/
def bareTagClass : NodeClass where
  input_types := some ⟨[("tensor_in", .str "TENSOR")], []⟩
  return_types := .tags ["STRING"]
  return_names := some ["out"]
  function := some "run"
  methods := ["run"]
  entry := fun _ => .ok .none

/-- C9: the input compatibility loop never looks at a field whose
declaration is not a non-empty tuple — inserting such a field anywhere
in a section leaves the check's result unchanged — and the executor's
argument marshalling likewise passes such a field's value through; in
particular the class declaring a bare unsupported `"TENSOR"` string tag
is classified FULLY_COMPATIBLE. -/
theorem input_check_skips_nontuple_decl :
    (∀ (f : String) (ti : PyVal), isNonemptyTuple ti = false →
      ∀ (pre post : List (String × PyVal)) (conv : List String),
        checkFields (pre ++ (f, ti) :: post) conv = checkFields (pre ++ post) conv) ∧
    (∀ (ti v : PyVal), isNonemptyTuple ti = false → marshalField ti v = .ok v) ∧
    check_node_compatibility bareTagClass = .fullyCompatible [] [] := by
  refine ⟨fun f ti h pre => ?_, fun ti v h => ?_, rfl⟩
  · induction pre with
    | nil =>
      intro post conv
      simp only [List.nil_append]
      cases ti with
      | tuple xs =>
        cases xs with
        | nil => rfl
        | cons hd tl => simp [isNonemptyTuple] at h
      | none => rfl
      | bool b => rfl
      | int n => rfl
      | str s => rfl
      | list l => rfl
      | dict d => rfl
      | decoded a b => rfl
    | cons hd pre' ih =>
      intro post conv
      obtain ⟨g, gti⟩ := hd
      rcases checkFields_cons_cases g gti conv with ⟨r, h1⟩ | ⟨conv2, h1⟩
      · rw [List.cons_append, List.cons_append, h1, h1]
      · rw [List.cons_append, List.cons_append, h1, h1, ih post conv2]
  · cases ti with
    | tuple xs =>
      cases xs with
      | nil => rfl
      | cons hd tl => simp [isNonemptyTuple] at h
    | none => rfl
    | bool b => rfl
    | int n => rfl
    | str s => rfl
    | list l => rfl
    | dict d => rfl
    | decoded a b => rfl

/-- Witness for C9: removing the bare-string field changes nothing, the
marshaller passes its value through, and the class is fully
compatible. -/
theorem input_check_skips_nontuple_decl_witness :
    checkFields ([] ++ ("tensor_in", PyVal.str "TENSOR") :: []) [] =
      checkFields ([] ++ []) [] ∧
    marshalField (PyVal.str "TENSOR") (.str "v") = .ok (.str "v") ∧
    check_node_compatibility bareTagClass = .fullyCompatible [] [] :=
  ⟨input_check_skips_nontuple_decl.1 "tensor_in" (.str "TENSOR") rfl [] [] [],
   input_check_skips_nontuple_decl.2.1 (.str "TENSOR") (.str "v") rfl,
   input_check_skips_nontuple_decl.2.2⟩

/-- The reset applied to incomplete Jobs by `_load_state`. -/
def resetItem (now : Nat) (it : QueueItem) : QueueItem :=
  { it with status := "queued", updated_at := now }

/-- The restore loop of `_load_state`, run under fresh pairwise-distinct
Job IDs and enough channel capacity for the incomplete Jobs, appends
every Job to the map (incomplete ones reset to `queued`) and every
incomplete Job's ID to the dispatch channel, in order. -/
theorem load_state_items_spec (maxsize now : Nat) (items : List QueueItem) :
    ∀ st : QueueState,
    (∀ it ∈ items, it.queue_id ∉ st.queue.map Prod.fst) →
    (items.map QueueItem.queue_id).Nodup →
    (maxsize = 0 ∨ st.processing.length +
      (items.filter (fun it => incompleteStatus it.status)).length ≤ maxsize) →
    load_state_items maxsize now items st =
      ⟨st.queue ++ items.map (fun it =>
          (it.queue_id, if incompleteStatus it.status then resetItem now it else it)),
        st.processing ++ (items.filter
          (fun it => incompleteStatus it.status)).map QueueItem.queue_id⟩ := by
  induction items with
  | nil => intro st _ _ _; cases st; simp [load_state_items]
  | cons item rest ih =>
    intro st hfresh hnodup hcap
    simp only [List.map_cons, List.nodup_cons] at hnodup
    have hid : item.queue_id ∉ st.queue.map Prod.fst :=
      hfresh item (List.mem_cons_self item rest)
    have hins := dictInsert_eq_append st.queue item.queue_id
    by_cases hinc : incompleteStatus item.status
    · have hok : maxsize = 0 ∨ st.processing.length < maxsize := by
        rcases hcap with h | h
        · exact Or.inl h
        · right
          rw [List.filter_cons_of_pos (by simpa using hinc)] at h
          simp only [List.length_cons] at h
          omega
      have hstep : load_state_items maxsize now (item :: rest) st =
          load_state_items maxsize now rest
            ⟨dictInsert st.queue item.queue_id (resetItem now item),
              st.processing ++ [item.queue_id]⟩ := by
        rw [load_state_items, if_pos hinc, if_pos (by simpa using hok)]
        rfl
      rw [hstep, hins (resetItem now item) hid, ih _ ?fresh hnodup.2 ?cap]
      · simp [List.filter_cons_of_pos (by simpa using hinc), hinc]
      case fresh =>
        intro it hit
        simp only [List.map_append, List.mem_append]
        push_neg
        refine ⟨hfresh it (List.mem_cons_of_mem item hit), ?_⟩
        intro hmem
        simp only [List.map_cons, List.map_nil, List.mem_singleton] at hmem
        exact hnodup.1 (hmem ▸ List.mem_map_of_mem QueueItem.queue_id hit)
      case cap =>
        rcases hcap with h | h
        · exact Or.inl h
        · right
          rw [List.filter_cons_of_pos (by simpa using hinc)] at h
          simp only [List.length_cons, List.length_append] at h ⊢
          simp only [List.length_cons, List.length_nil]
          omega
    · have hstep : load_state_items maxsize now (item :: rest) st =
          load_state_items maxsize now rest
            ⟨dictInsert st.queue item.queue_id item, st.processing⟩ := by
        rw [load_state_items, if_neg hinc]
      rw [hstep, hins item hid, ih _ ?fresh2 hnodup.2 ?cap2]
      · simp [List.filter_cons_of_neg (by simpa using hinc), hinc]
      case fresh2 =>
        intro it hit
        simp only [List.map_append, List.mem_append]
        push_neg
        refine ⟨hfresh it (List.mem_cons_of_mem item hit), ?_⟩
        intro hmem
        simp only [List.map_cons, List.map_nil, List.mem_singleton] at hmem
        exact hnodup.1 (hmem ▸ List.mem_map_of_mem QueueItem.queue_id hit)
      case cap2 =>
        rcases hcap with h | h
        · exact Or.inl h
        · right
          rw [List.filter_cons_of_neg (by simpa using hinc)] at h
          exact h

/-- C1 counterexample: a state file holding two incomplete Jobs reloaded
under `max_queue_size = 1`: `put_nowait` raises `QueueFull` on the
second Job, so Job `b` ends up in the Job map with status `queued` but
is never re-enqueued on the dispatch channel — it is silently stranded,
against the claim that no queued/processing Job is dropped from
re-enqueueing. -/
theorem load_state_overflow_cex :
    (load_state 1 0
      [⟨"a", "k", "ep", .none, "queued", Option.none, Option.none, 0, 0⟩,
       ⟨"b", "k", "ep", .none, "processing", Option.none, Option.none, 0, 0⟩]).processing
      = ["a"] ∧
    "b" ∉ (load_state 1 0
      [⟨"a", "k", "ep", .none, "queued", Option.none, Option.none, 0, 0⟩,
       ⟨"b", "k", "ep", .none, "processing", Option.none, Option.none, 0, 0⟩]).processing ∧
    dictGet (load_state 1 0
      [⟨"a", "k", "ep", .none, "queued", Option.none, Option.none, 0, 0⟩,
       ⟨"b", "k", "ep", .none, "processing", Option.none, Option.none, 0, 0⟩]).queue "b"
      = some ⟨"b", "k", "ep", .none, "queued", Option.none, Option.none, 0, 0⟩ :=
  ⟨rfl, by decide, rfl⟩

/-- C1 (amended): when resume is enabled and a state file exists,
provided the dispatch channel is unbounded (`max_queue_size = 0`) or the
state file's queued/processing Jobs fit within `max_queue_size`, loading
restores every persisted Job: each queued/processing Job is reset to
`queued` and re-enqueued on the dispatch channel in file order (none
dropped, none treated as complete), and each completed/failed Job is
retained in the Job map unchanged. Beyond that capacity, `put_nowait`
raises `QueueFull` and the load aborts partway (see the
counterexample). The ID-distinctness hypothesis restates that the file
was written from a Job map keyed by ID. -/
theorem load_state_restores_jobs (maxsize now : Nat) (items : List QueueItem)
    (hnodup : (items.map QueueItem.queue_id).Nodup)
    (hcap : maxsize = 0 ∨
      (items.filter (fun it => incompleteStatus it.status)).length ≤ maxsize) :
    load_state maxsize now items =
      ⟨items.map (fun it =>
          (it.queue_id, if incompleteStatus it.status then resetItem now it else it)),
        (items.filter (fun it => incompleteStatus it.status)).map QueueItem.queue_id⟩ := by
  have h := load_state_items_spec maxsize now items ⟨[], []⟩ (by simp) hnodup
    (by simpa using hcap)
  simpa [load_state] using h

/-- Witness for C1 (amended): one `processing` and one `completed` Job
reloaded with capacity 2: the `processing` Job comes back `queued` and
re-enqueued, the `completed` Job is retained unchanged. -/
theorem load_state_restores_jobs_witness :
    load_state 2 7
      [⟨"a", "k", "ep", .none, "processing", Option.none, Option.none, 3, 3⟩,
       ⟨"c", "k", "ep", .none, "completed", some (.str "r"), Option.none, 1, 2⟩] =
      ⟨[("a", ⟨"a", "k", "ep", .none, "queued", Option.none, Option.none, 3, 7⟩),
        ("c", ⟨"c", "k", "ep", .none, "completed", some (.str "r"), Option.none, 1, 2⟩)],
       ["a"]⟩ :=
  (load_state_restores_jobs 2 7
    [⟨"a", "k", "ep", .none, "processing", Option.none, Option.none, 3, 3⟩,
     ⟨"c", "k", "ep", .none, "completed", some (.str "r"), Option.none, 1, 2⟩]
    (by decide) (Or.inr (by decide))).trans rfl
